import Mathlib

/-!
Verification of the audio-transcribe repository against its specification.

The definitions below are a shallow embedding of the Python sources
`ClarifaiUtil.py` and `config.py`: pure fragments become Lean functions,
byte strings become `List Nat`, Python exceptions become `Except`, and the
external audio library (pydub) and the network stub are modelled as
explicit oracles passed to the embedded functions.
-/

namespace AudioTranscribe

/-- Python `range(0, stop, step)` for a positive `step`: the list
`[0, step, 2*step, ...]` of all multiples of `step` below `stop`. -/
def pyRange (stop step : Nat) : List Nat :=
  (List.range ((stop + step - 1) / step)).map (fun i => i * step)

/-- The `(start, end)` millisecond slices produced by
`ClarifaiOpenAIStreamer.chunk_audio_for_streaming`: when the total
duration fits in one chunk the whole segment is yielded, otherwise the
loop `for start in range(0, total_duration, chunk_duration_ms)` slices
`audio_segment[start : min(start + chunk_duration_ms, total_duration)]`. -/
def chunk_audio_slices (total_duration chunk_duration_ms : Nat) : List (Nat × Nat) :=
  if total_duration ≤ chunk_duration_ms then
    [(0, total_duration)]
  else
    (pyRange total_duration chunk_duration_ms).map
      (fun start => (start, min (start + chunk_duration_ms) total_duration))

/-- Durations (in ms) of the chunks yielded by `chunk_audio_for_streaming`. -/
def chunk_audio_durations (D C : Nat) : List Nat :=
  (chunk_audio_slices D C).map (fun p => p.2 - p.1)

lemma ceil_div_pos (D C : Nat) (hD : 0 < D) (hC : 0 < C) : 0 < (D + C - 1) / C := by
  have h1 := Nat.div_add_mod (D + C - 1) C
  have h2 : (D + C - 1) % C < C := Nat.mod_lt _ hC
  rcases Nat.eq_zero_or_pos ((D + C - 1) / C) with h | h
  · rw [h] at h1; omega
  · exact h

lemma ceil_div_mul_ge (D C : Nat) (hC : 0 < C) : D ≤ (D + C - 1) / C * C := by
  have h1 := Nat.div_add_mod (D + C - 1) C
  have h2 : (D + C - 1) % C < C := Nat.mod_lt _ hC
  have h3 : C * ((D + C - 1) / C) = (D + C - 1) / C * C := Nat.mul_comm _ _
  omega

lemma mul_lt_of_lt_ceil_div (D C i : Nat) (hC : 0 < C)
    (h : i < (D + C - 1) / C) : i * C < D := by
  have h1 : i + 1 ≤ (D + C - 1) / C := h
  have h2 : (i + 1) * C ≤ D + C - 1 := (Nat.le_div_iff_mul_le hC).mp h1
  have h3 : (i + 1) * C = i * C + C := by ring
  omega

lemma chunk_audio_slices_eq (D C : Nat) (hD : 0 < D) (hC : 0 < C) :
    chunk_audio_slices D C =
      (List.range ((D + C - 1) / C)).map (fun i => (i * C, min (i * C + C) D)) := by
  unfold chunk_audio_slices pyRange
  by_cases h : D ≤ C
  · have hone : (D + C - 1) / C = 1 := by
      have h1 := Nat.div_add_mod (D + C - 1) C
      have h2 : (D + C - 1) % C < C := Nat.mod_lt _ hC
      have h3 : D + C - 1 < 2 * C := by omega
      have h4 : C ≤ D + C - 1 := by omega
      have h5 : (D + C - 1) / C < 2 := by
        by_contra hcon
        push_neg at hcon
        have := (Nat.le_div_iff_mul_le hC).mp hcon
        omega
      have h6 : 1 ≤ (D + C - 1) / C := (Nat.le_div_iff_mul_le hC).mpr (by omega)
      omega
    simp only [if_pos h, hone, List.range_succ, List.range_zero, List.nil_append,
      List.map_cons, List.map_nil, Nat.zero_mul]
    have hmin : min (0 + C) D = D := by omega
    rw [hmin]
  · simp only [if_neg h, List.map_map]
    rfl

lemma chunk_durations_eq (D C : Nat) (hD : 0 < D) (hC : 0 < C) :
    chunk_audio_durations D C =
      (List.range ((D + C - 1) / C)).map (fun i => min (i * C + C) D - i * C) := by
  unfold chunk_audio_durations
  rw [chunk_audio_slices_eq D C hD hC, List.map_map]
  rfl

lemma sum_range_min_sub (C D : Nat) :
    ∀ n, (∀ i, i < n → i * C < D) →
      ((List.range n).map (fun i => min (i * C + C) D - i * C)).sum = min (n * C) D := by
  intro n
  induction n with
  | zero => intro _; simp
  | succ m ih =>
    intro h
    rw [List.range_succ, List.map_append, List.sum_append]
    rw [ih (fun i hi => h i (Nat.lt_succ_of_lt hi))]
    have hm : m * C < D := h m (Nat.lt_succ_self m)
    have hsucc : (m + 1) * C = m * C + C := by ring
    have hsing : ((List.map (fun i => min (i * C + C) D - i * C) [m]).sum) =
        min (m * C + C) D - m * C := by simp
    rw [hsing]
    omega

/-- C2: for positive total duration `D` and chunk length `C`,
`chunk_audio_for_streaming` yields exactly `ceil(D / C)` chunks whose
durations sum to `D`; every chunk except possibly the last lasts exactly
`C` ms, and the i-th slice covers `[i*C, min(i*C + C, D))`, so the chunks
cover the buffer in order without overlap.  A 5-second buffer with
2-second chunks gives 3 chunks, and `D ≤ C` gives exactly one chunk. -/
theorem chunk_audio_for_streaming_spec (D C : Nat) (hD : 0 < D) (hC : 0 < C) :
    (chunk_audio_durations D C).length = (D + C - 1) / C ∧
    (chunk_audio_durations D C).sum = D ∧
    (∀ i, i + 1 < (chunk_audio_durations D C).length →
      (chunk_audio_durations D C)[i]? = some C) ∧
    (∀ i, i < (chunk_audio_durations D C).length →
      (chunk_audio_slices D C)[i]? = some (i * C, min (i * C + C) D)) ∧
    (chunk_audio_durations 5000 2000).length = 3 ∧
    (D ≤ C → (chunk_audio_durations D C).length = 1) := by
  have hlen : (chunk_audio_durations D C).length = (D + C - 1) / C := by
    rw [chunk_durations_eq D C hD hC, List.length_map, List.length_range]
  refine ⟨hlen, ?_, ?_, ?_, by decide, ?_⟩
  · rw [chunk_durations_eq D C hD hC]
    rw [sum_range_min_sub C D _ (fun i hi => mul_lt_of_lt_ceil_div D C i hC hi)]
    have := ceil_div_mul_ge D C hC
    omega
  · intro i hi
    rw [hlen] at hi
    rw [chunk_durations_eq D C hD hC, List.getElem?_map, List.getElem?_range (by omega)]
    have h1 : (i + 1) * C < D := mul_lt_of_lt_ceil_div D C (i + 1) hC hi
    have h2 : (i + 1) * C = i * C + C := by ring
    simp only [Option.map_some']
    congr 1
    omega
  · intro i hi
    rw [hlen] at hi
    rw [chunk_audio_slices_eq D C hD hC, List.getElem?_map, List.getElem?_range hi]
    rfl
  · intro h
    rw [hlen]
    have h1 := Nat.div_add_mod (D + C - 1) C
    have h2 : (D + C - 1) % C < C := Nat.mod_lt _ hC
    have h5 : (D + C - 1) / C < 2 := by
      by_contra hcon
      push_neg at hcon
      have := (Nat.le_div_iff_mul_le hC).mp hcon
      omega
    have h6 : 1 ≤ (D + C - 1) / C := (Nat.le_div_iff_mul_le hC).mpr (by omega)
    omega

/-- Witness for C2 at the spec instance: 5000 ms buffer, 2000 ms chunks. -/
theorem chunk_audio_for_streaming_spec_witness :
    0 < 5000 ∧ 0 < 2000 ∧
    ((chunk_audio_durations 5000 2000).length = (5000 + 2000 - 1) / 2000 ∧
     (chunk_audio_durations 5000 2000).sum = 5000 ∧
     (∀ i, i + 1 < (chunk_audio_durations 5000 2000).length →
       (chunk_audio_durations 5000 2000)[i]? = some 2000) ∧
     (∀ i, i < (chunk_audio_durations 5000 2000).length →
       (chunk_audio_slices 5000 2000)[i]? = some (i * 2000, min (i * 2000 + 2000) 5000)) ∧
     (chunk_audio_durations 5000 2000).length = 3 ∧
     (5000 ≤ 2000 → (chunk_audio_durations 5000 2000).length = 1)) :=
  ⟨by decide, by decide, chunk_audio_for_streaming_spec 5000 2000 (by decide) (by decide)⟩

/-! ## Dictionaries, configuration and the synchronous transcription path -/

/-- Byte strings are modelled as lists of byte values. -/
abbrev Bytes := List Nat

/-- A Python string-valued dictionary, as an ordered association list. -/
abbrev Dict := List (String × String)

/-- Python dictionary assignment `d[k] = v`: replace the value of an
existing key in place, or append the new key at the end. -/
def dictInsert : Dict → String → String → Dict
  | [], k, v => [(k, v)]
  | (k0, v0) :: rest, k, v =>
    if k0 = k then (k0, v) :: rest else (k0, v0) :: dictInsert rest k v

/-- The fields of `config.Config` used by the transcription code paths
(the normalization flag, `NORMALIZE_AUDIO` in the source, is named
`NORMALIZE_AUDIO_FLAG` here). -/
structure Config where
  CLARIFAI_DEPLOYMENT_ID : Option String
  AVAILABLE_MODELS : List (String × Dict)
  HIGH_QUALITY_CONVERSION : Bool
  TARGET_SAMPLE_RATE : Nat
  NORMALIZE_AUDIO_FLAG : Bool
  TRIM_SILENCE : Bool

/-- `Config.get_model_info`: `AVAILABLE_MODELS.get(model_name, {}).copy()`
followed by the `deployment_id` override when `CLARIFAI_DEPLOYMENT_ID` is
set.  Value semantics make the `.copy()` implicit here; the heap model
below makes it explicit. -/
def Config.get_model_info (c : Config) (model_name : String) : Dict :=
  let model_info := (List.lookup model_name c.AVAILABLE_MODELS).getD []
  match c.CLARIFAI_DEPLOYMENT_ID with
  | some d => dictInsert model_info "deployment_id" d
  | none => model_info

/-- The Python exceptions raised along the transcription paths. -/
inductive PyErr where
  | valueError (msg : String)
  | typeError (msg : String)
  | keyError (key : String)
  | exception (msg : String)
deriving DecidableEq, Repr

/-- A Python value passed as `audio_bytes`: real bytes, or a value of some
other type (carrying its type name, as used in the TypeError message). -/
inductive PyValue where
  | bytes (b : Bytes)
  | other (typeName : String)

/-- `ClarifaiTranscriber.validate_audio_data`: type check, emptiness
check, then conversion to WAV (the conversion is the `convert_to_wav`
method, passed here as a function). -/
def validate_audio_data (convert : Bytes → Bytes) (audio_data : PyValue) :
    Except PyErr Bytes :=
  match audio_data with
  | .other t => .error (.typeError ("Expected bytes, got " ++ t))
  | .bytes b =>
    if b.length = 0 then .error (.valueError "Audio data is empty")
    else .ok (convert b)

/-- The payload of a `PostModelOutputsRequest` built by
`create_transcription_request`. -/
structure TranscriptionRequest where
  user_id : String
  app_id : String
  model_id : String
  audio : Bytes
deriving DecidableEq

/-- `ClarifaiTranscriber.create_transcription_request`: reads
`model_info["user_id"]`, `model_info["app_id"]` and
`model_info["model_id"]` in that order; a missing key raises `KeyError`. -/
def create_transcription_request (audio_bytes : Bytes) (model_info : Dict) :
    Except PyErr TranscriptionRequest :=
  match List.lookup "user_id" model_info with
  | none => .error (.keyError "user_id")
  | some u =>
    match List.lookup "app_id" model_info with
    | none => .error (.keyError "app_id")
    | some a =>
      match List.lookup "model_id" model_info with
      | none => .error (.keyError "model_id")
      | some m => .ok { user_id := u, app_id := a, model_id := m, audio := audio_bytes }

/-- The part of a Clarifai `Output.data` read by the extraction code. -/
structure OutputData where
  concepts : List String
  textRaw : String

/-- One output of a Clarifai response. -/
structure ModelOutput where
  data : OutputData

/-- A Clarifai `PostModelOutputsResponse`, reduced to the fields read by
the code: status and outputs. -/
structure ClarifaiResponse where
  statusSuccess : Bool
  statusDescription : String
  outputs : List ModelOutput

/-- Python `str.strip()`: drop leading and trailing whitespace. -/
def pyStrip (s : String) : String :=
  String.mk (((s.data.dropWhile Char.isWhitespace).reverse.dropWhile
    Char.isWhitespace).reverse)

/-- `ClarifaiTranscriber.extract_transcription_text`: concept names are
concatenated with trailing spaces; otherwise the non-empty raw text is
used; the final statement strips the result or falls back to a default
string.  Protobuf sub-messages are always truthy, so the
`output.data.text` check reduces to inspecting `raw`. -/
def extract_transcription_text (response : ClarifaiResponse) : String :=
  match response.outputs with
  | [] => "No transcription available"
  | output :: _ =>
    let fromConcepts :=
      if output.data.concepts = [] then ""
      else output.data.concepts.foldl (fun acc n => acc ++ n ++ " ") ""
    let transcription :=
      if fromConcepts = "" ∧ output.data.textRaw ≠ "" then output.data.textRaw
      else fromConcepts
    if transcription = "" then
      if output.data.textRaw = "" then
        "Model returned empty response - may not be deployed or compatible with audio format"
      else "No transcription available"
    else pyStrip transcription

/-- The exception translation done by `transcribe_audio`s handlers:
`except (TypeError, ValueError)` re-raises unchanged, `except Exception`
wraps the stringified error in `Exception("Transcription failed: ...")`. -/
def pyWrapError : PyErr → PyErr
  | .typeError m => .typeError m
  | .valueError m => .valueError m
  | .keyError k => .exception ("Transcription failed: KeyError: " ++ k)
  | .exception m => .exception ("Transcription failed: " ++ m)

/-- `ClarifaiTranscriber.transcribe_audio`.  The WAV conversion and the
gRPC stub are oracles; the returned boolean records whether
`PostModelOutputs` was invoked on the stub. -/
def transcribe_audio (c : Config) (convert : Bytes → Bytes)
    (network : TranscriptionRequest → Except PyErr ClarifaiResponse)
    (audio_bytes : PyValue) (model_name : String) :
    Except PyErr String × Bool :=
  if c.get_model_info model_name = [] then
    (.error (.valueError ("Unknown model: " ++ model_name)), false)
  else
    match validate_audio_data convert audio_bytes with
    | .error e => (.error (pyWrapError e), false)
    | .ok validated_audio =>
      match create_transcription_request validated_audio (c.get_model_info model_name) with
      | .error e => (.error (pyWrapError e), false)
      | .ok request =>
        match network request with
        | .error e => (.error (pyWrapError e), true)
        | .ok response =>
          if response.statusSuccess then
            (.ok (extract_transcription_text response), true)
          else
            (.error (pyWrapError (.exception
              ("Clarifai API error: " ++ response.statusDescription))), true)

/-- The model table used for concrete instances, one known model. -/
def sampleModels : List (String × Dict) :=
  [("OpenAI Whisper",
    [("model_id", "whisper"), ("user_id", "openai"), ("app_id", "transcription")])]

/-- A configuration with the `CLARIFAI_DEPLOYMENT_ID` override set. -/
def cfgWithOverride : Config :=
  ⟨some "deploy-override", sampleModels, true, 16000, true, true⟩

/-- A configuration with no `CLARIFAI_DEPLOYMENT_ID` override. -/
def cfgNoOverride : Config :=
  ⟨none, sampleModels, true, 16000, true, true⟩

/-- A network oracle that always answers successfully with no outputs. -/
def networkOk : TranscriptionRequest → Except PyErr ClarifaiResponse :=
  fun _ => .ok ⟨true, "", []⟩

/-- C1 counterexample: with `CLARIFAI_DEPLOYMENT_ID` set, an unknown
model name does NOT raise `ValueError`: `get_model_info` returns the
non-empty dict `{deployment_id: ...}`, the `if not model_info` guard
passes, and the call fails later with a `KeyError` wrapped as a generic
exception (still before any network call). -/
theorem transcribe_unknown_model_cex :
    (transcribe_audio cfgWithOverride id networkOk (.bytes [1, 2, 3])
        "No Such Model").1 =
      .error (.exception "Transcription failed: KeyError: user_id") ∧
    ¬ ∃ msg, (transcribe_audio cfgWithOverride id networkOk (.bytes [1, 2, 3])
        "No Such Model").1 = .error (.valueError msg) := by
  refine ⟨rfl, ?_⟩
  rintro ⟨msg, hmsg⟩
  rw [show (transcribe_audio cfgWithOverride id networkOk (.bytes [1, 2, 3])
      "No Such Model").1 =
    .error (.exception "Transcription failed: KeyError: user_id") from rfl] at hmsg
  simp at hmsg

/-- C1 (amended): for a model name outside `AVAILABLE_MODELS`, if
`CLARIFAI_DEPLOYMENT_ID` is not set then `transcribe_audio` raises
`ValueError("Unknown model: ...")`; and in every case (override set or
not) `PostModelOutputs` is never invoked for an unknown name. -/
theorem transcribe_unknown_model_spec (c : Config) (convert : Bytes → Bytes)
    (network : TranscriptionRequest → Except PyErr ClarifaiResponse)
    (audio : PyValue) (name : String)
    (hunk : List.lookup name c.AVAILABLE_MODELS = none) :
    (c.CLARIFAI_DEPLOYMENT_ID = none →
      transcribe_audio c convert network audio name =
        (.error (.valueError ("Unknown model: " ++ name)), false)) ∧
    (transcribe_audio c convert network audio name).2 = false := by
  unfold transcribe_audio Config.get_model_info
  rw [hunk]
  simp only [Option.getD_none]
  cases hdep : c.CLARIFAI_DEPLOYMENT_ID with
  | none =>
    exact ⟨fun _ => rfl, rfl⟩
  | some d =>
    dsimp only
    refine ⟨fun h => ?_, ?_⟩
    · simp at h
    · have hne : dictInsert [] "deployment_id" d ≠ [] := by
        simp [dictInsert]
      rw [if_neg hne]
      cases hv : validate_audio_data convert audio with
      | error e => rfl
      | ok b => rfl

/-- Witness for C1 (amended), at a concrete unknown model name with the
override unset. -/
theorem transcribe_unknown_model_spec_witness :
    List.lookup "No Such Model" cfgNoOverride.AVAILABLE_MODELS = none ∧
    ((cfgNoOverride.CLARIFAI_DEPLOYMENT_ID = none →
      transcribe_audio cfgNoOverride id networkOk (.bytes [1]) "No Such Model" =
        (.error (.valueError ("Unknown model: " ++ "No Such Model")), false)) ∧
     (transcribe_audio cfgNoOverride id networkOk (.bytes [1]) "No Such Model").2 =
       false) :=
  ⟨rfl, transcribe_unknown_model_spec cfgNoOverride id networkOk (.bytes [1])
    "No Such Model" rfl⟩

/-- C4: a non-bytes input raises `TypeError`, an empty bytes input raises
`ValueError`; neither result depends on the conversion function (no
conversion runs); and for a known model `transcribe_audio` re-raises both
errors unchanged with the network untouched. -/
theorem validate_audio_data_spec (c : Config) (convert : Bytes → Bytes)
    (network : TranscriptionRequest → Except PyErr ClarifaiResponse)
    (name : String) (t : String)
    (hknown : c.get_model_info name ≠ []) :
    validate_audio_data convert (.other t) =
      .error (.typeError ("Expected bytes, got " ++ t)) ∧
    validate_audio_data convert (.bytes []) =
      .error (.valueError "Audio data is empty") ∧
    (∀ conv2 : Bytes → Bytes,
      validate_audio_data convert (.other t) = validate_audio_data conv2 (.other t) ∧
      validate_audio_data convert (.bytes []) = validate_audio_data conv2 (.bytes [])) ∧
    transcribe_audio c convert network (.other t) name =
      (.error (.typeError ("Expected bytes, got " ++ t)), false) ∧
    transcribe_audio c convert network (.bytes []) name =
      (.error (.valueError "Audio data is empty"), false) := by
  refine ⟨rfl, rfl, fun conv2 => ⟨rfl, rfl⟩, ?_, ?_⟩
  · unfold transcribe_audio
    rw [if_neg hknown]
    rfl
  · unfold transcribe_audio
    rw [if_neg hknown]
    rfl

/-- Witness for C4 at a known model and a concrete non-bytes input. -/
theorem validate_audio_data_spec_witness :
    cfgNoOverride.get_model_info "OpenAI Whisper" ≠ [] ∧
    (validate_audio_data id (.other "int") =
       .error (.typeError ("Expected bytes, got " ++ "int")) ∧
     validate_audio_data id (.bytes []) =
       .error (.valueError "Audio data is empty") ∧
     (∀ conv2 : Bytes → Bytes,
       validate_audio_data id (.other "int") = validate_audio_data conv2 (.other "int") ∧
       validate_audio_data id (.bytes []) = validate_audio_data conv2 (.bytes [])) ∧
     transcribe_audio cfgNoOverride id networkOk (.other "int") "OpenAI Whisper" =
       (.error (.typeError ("Expected bytes, got " ++ "int")), false) ∧
     transcribe_audio cfgNoOverride id networkOk (.bytes []) "OpenAI Whisper" =
       (.error (.valueError "Audio data is empty"), false)) :=
  ⟨by decide, validate_audio_data_spec cfgNoOverride id networkOk "OpenAI Whisper"
    "int" (by decide)⟩

/-! ## Extraction of the transcription text (C7) -/

/-- Joining a list of strings in order with single spaces between them. -/
def sepJoin : List String → String
  | [] => ""
  | [s] => s
  | s :: rest => s ++ " " ++ sepJoin rest

/-- Concatenation of strings, each followed by one space, as the concept
loop of `extract_transcription_text` produces. -/
def trailJoin : List String → String
  | [] => ""
  | s :: rest => s ++ " " ++ trailJoin rest

lemma str_append_assoc (a b c : String) : a ++ b ++ c = a ++ (b ++ c) := by
  apply String.ext
  simp [String.data_append, List.append_assoc]

lemma str_append_empty (s : String) : s ++ "" = s := by
  apply String.ext
  have h : ("" : String).data = [] := rfl
  simp [String.data_append, h]

lemma str_empty_append (s : String) : "" ++ s = s := by
  apply String.ext
  have h : ("" : String).data = [] := rfl
  simp [String.data_append, h]

lemma foldl_trailJoin (l : List String) :
    ∀ acc : String, l.foldl (fun a n => a ++ n ++ " ") acc = acc ++ trailJoin l := by
  induction l with
  | nil => intro acc; simp [trailJoin, str_append_empty]
  | cons n rest ih =>
    intro acc
    simp only [List.foldl_cons, trailJoin, ih]
    simp only [str_append_assoc]

lemma trailJoin_eq_sepJoin (l : List String) (h : l ≠ []) :
    trailJoin l = sepJoin l ++ " " := by
  induction l with
  | nil => exact absurd rfl h
  | cons n rest ih =>
    cases rest with
    | nil => simp [trailJoin, sepJoin, str_append_empty]
    | cons m tail =>
      show n ++ " " ++ trailJoin (m :: tail) = (n ++ " " ++ sepJoin (m :: tail)) ++ " "
      rw [ih (by simp)]
      simp only [str_append_assoc]

lemma trailJoin_ne_empty (l : List String) (h : l ≠ []) : trailJoin l ≠ "" := by
  cases l with
  | nil => exact absurd rfl h
  | cons n rest =>
    intro heq
    have hd := congrArg String.data heq
    show False
    rw [show trailJoin (n :: rest) = n ++ " " ++ trailJoin rest from rfl] at hd
    rw [String.data_append, String.data_append] at hd
    rw [show (" " : String).data = [' '] from rfl,
      show ("" : String).data = [] from rfl] at hd
    simp at hd

lemma dropWhile_list_append_space (w : Char → Bool) (hw : w ' ' = true)
    (l : List Char) :
    ((l ++ [' ']).dropWhile w).reverse.dropWhile w =
      (l.dropWhile w).reverse.dropWhile w := by
  cases hdw : l.dropWhile w with
  | nil =>
    rw [List.dropWhile_append, hdw]
    simp [hw]
  | cons a as =>
    rw [List.dropWhile_append, hdw]
    simp [hw]

lemma pyStrip_append_space (s : String) : pyStrip (s ++ " ") = pyStrip s := by
  unfold pyStrip
  rw [String.data_append, show (" " : String).data = [' '] from rfl]
  rw [dropWhile_list_append_space Char.isWhitespace (by decide)]

lemma pyStrip_trailJoin (l : List String) (h : l ≠ []) :
    pyStrip (trailJoin l) = pyStrip (sepJoin l) := by
  rw [trailJoin_eq_sepJoin l h, pyStrip_append_space]

/-- C7: `extract_transcription_text` is total and never lacks a value:
an empty outputs list gives the default non-empty string; with concepts
present, the concept names are joined in order by single spaces and
stripped; with no concepts but non-empty raw text, the raw text is
returned stripped; with neither, a non-empty default string is returned,
never an exception and never an empty string in the absent-field cases. -/
theorem extract_transcription_text_spec (r : ClarifaiResponse) :
    (r.outputs = [] → extract_transcription_text r = "No transcription available") ∧
    (∀ output rest, r.outputs = output :: rest →
      (output.data.concepts ≠ [] →
        extract_transcription_text r = pyStrip (sepJoin output.data.concepts)) ∧
      (output.data.concepts = [] → output.data.textRaw ≠ "" →
        extract_transcription_text r = pyStrip output.data.textRaw) ∧
      (output.data.concepts = [] → output.data.textRaw = "" →
        extract_transcription_text r =
          "Model returned empty response - may not be deployed or compatible with audio format")) ∧
    ((r.outputs = [] ∨ (∃ output rest, r.outputs = output :: rest ∧
        output.data.concepts = [] ∧ output.data.textRaw = "")) →
      extract_transcription_text r ≠ "") := by
  have hmain : ∀ output rest, r.outputs = output :: rest →
      (output.data.concepts ≠ [] →
        extract_transcription_text r = pyStrip (sepJoin output.data.concepts)) ∧
      (output.data.concepts = [] → output.data.textRaw ≠ "" →
        extract_transcription_text r = pyStrip output.data.textRaw) ∧
      (output.data.concepts = [] → output.data.textRaw = "" →
        extract_transcription_text r =
          "Model returned empty response - may not be deployed or compatible with audio format") := by
    intro output rest hout
    unfold extract_transcription_text
    rw [hout]
    dsimp only
    refine ⟨?_, ?_, ?_⟩
    · intro hc
      rw [if_neg hc]
      have hfold : List.foldl (fun acc n => acc ++ n ++ " ") "" output.data.concepts =
          trailJoin output.data.concepts := by
        rw [foldl_trailJoin, str_empty_append]
      rw [hfold]
      have hne : trailJoin output.data.concepts ≠ "" := trailJoin_ne_empty _ hc
      have hcond : ¬(trailJoin output.data.concepts = "" ∧ output.data.textRaw ≠ "") :=
        fun hand => hne hand.1
      rw [if_neg hcond, if_neg hne]
      exact pyStrip_trailJoin _ hc
    · intro hc hraw
      rw [if_pos hc]
      have hpos : ("" : String) = "" ∧ output.data.textRaw ≠ "" := ⟨rfl, hraw⟩
      rw [if_pos hpos]
      rw [if_neg hraw]
    · intro hc hraw
      rw [if_pos hc]
      have hneg : ¬(("" : String) = "" ∧ output.data.textRaw ≠ "") :=
        fun hand => hand.2 hraw
      rw [if_neg hneg]
      have hrfl : ("" : String) = "" := rfl
      rw [if_pos hrfl, if_pos hraw]
  refine ⟨?_, hmain, ?_⟩
  · intro h
    unfold extract_transcription_text
    rw [h]
  · intro hcase
    rcases hcase with h | ⟨output, rest, hout, hc, hraw⟩
    · unfold extract_transcription_text
      rw [h]
      decide
    · rw [((hmain output rest hout).2.2) hc hraw]
      decide

/-- Witness for C7, the theorem applied at a concrete response whose
first output has no concepts and empty raw text. -/
theorem extract_transcription_text_spec_witness :
    (let r : ClarifaiResponse := ⟨true, "", [⟨⟨[], ""⟩⟩]⟩
     (r.outputs = [] → extract_transcription_text r = "No transcription available") ∧
     (∀ output rest, r.outputs = output :: rest →
       (output.data.concepts ≠ [] →
         extract_transcription_text r = pyStrip (sepJoin output.data.concepts)) ∧
       (output.data.concepts = [] → output.data.textRaw ≠ "" →
         extract_transcription_text r = pyStrip output.data.textRaw) ∧
       (output.data.concepts = [] → output.data.textRaw = "" →
         extract_transcription_text r =
           "Model returned empty response - may not be deployed or compatible with audio format")) ∧
     ((r.outputs = [] ∨ (∃ output rest, r.outputs = output :: rest ∧
         output.data.concepts = [] ∧ output.data.textRaw = "")) →
       extract_transcription_text r ≠ "")) :=
  extract_transcription_text_spec ⟨true, "", [⟨⟨[], ""⟩⟩]⟩

/-! ## Heap model of the model mapping (C8) -/

/-- A heap of Python dict objects; a reference is an index into it. -/
abbrev Heap := List Dict

/-- The parts of `Config` relevant to object identity: `AVAILABLE_MODELS`
maps each display name to the heap reference of its configuration dict. -/
structure ConfigH where
  AVAILABLE_MODELS : List (String × Nat)
  CLARIFAI_DEPLOYMENT_ID : Option String

/-- Read a dict object from the heap (missing references read as `{}`). -/
def heapGet (h : Heap) (r : Nat) : Dict := (h[r]?).getD []

/-- `Config.get_model_info` over the heap model:
`self.AVAILABLE_MODELS.get(model_name, {}).copy()` allocates a fresh dict
object, and the `deployment_id` assignment then mutates only that fresh
object.  Returns the new heap and the reference of the returned dict. -/
def get_model_info_h (c : ConfigH) (h : Heap) (name : String) : Heap × Nat :=
  let base :=
    match List.lookup name c.AVAILABLE_MODELS with
    | some r => heapGet h r
    | none => []
  let result :=
    match c.CLARIFAI_DEPLOYMENT_ID with
    | some d => dictInsert base "deployment_id" d
    | none => base
  (h ++ [result], h.length)

/-- C8: `get_model_info` returns a copy, so the stored model mapping is
never mutated: every dict object that existed before the call — in
particular every entry referenced by `AVAILABLE_MODELS` — is unchanged
afterwards (also when the `deployment_id` override is added to the
returned copy), and the returned reference is a fresh object. -/
theorem get_model_info_no_mutation (c : ConfigH) (h : Heap) (name : String) :
    (∀ i, i < h.length → ((get_model_info_h c h name).1)[i]? = h[i]?) ∧
    (∀ nm r, (nm, r) ∈ c.AVAILABLE_MODELS → r < h.length →
      heapGet (get_model_info_h c h name).1 r = heapGet h r) ∧
    (get_model_info_h c h name).2 = h.length := by
  have hpres : ∀ i, i < h.length → ((get_model_info_h c h name).1)[i]? = h[i]? := by
    intro i hi
    unfold get_model_info_h
    simp only
    rw [List.getElem?_append, if_pos hi]
  refine ⟨hpres, ?_, rfl⟩
  intro nm r hmem hr
  unfold heapGet
  rw [hpres r hr]

/-- Witness for C8 at a one-entry heap and a set override. -/
theorem get_model_info_no_mutation_witness :
    (∀ i, i < ([[("model_id", "whisper")]] : Heap).length →
      ((get_model_info_h ⟨[("OpenAI Whisper", 0)], some "dep"⟩
          [[("model_id", "whisper")]] "OpenAI Whisper").1)[i]? =
        ([[("model_id", "whisper")]] : Heap)[i]?) ∧
    (∀ nm r, (nm, r) ∈ (⟨[("OpenAI Whisper", 0)], some "dep"⟩ : ConfigH).AVAILABLE_MODELS →
      r < ([[("model_id", "whisper")]] : Heap).length →
      heapGet (get_model_info_h ⟨[("OpenAI Whisper", 0)], some "dep"⟩
          [[("model_id", "whisper")]] "OpenAI Whisper").1 r =
        heapGet [[("model_id", "whisper")]] r) ∧
    (get_model_info_h ⟨[("OpenAI Whisper", 0)], some "dep"⟩
        [[("model_id", "whisper")]] "OpenAI Whisper").2 =
      ([[("model_id", "whisper")]] : Heap).length :=
  get_model_info_no_mutation ⟨[("OpenAI Whisper", 0)], some "dep"⟩
    [[("model_id", "whisper")]] "OpenAI Whisper"

/-! ## Restoration of the global quality settings (C9) -/

/-- The four global audio-quality settings of the `config` object (the
normalization flag, `NORMALIZE_AUDIO` in the source, is named
`NORMALIZE_AUDIO_FLAG` here). -/
structure QSettings where
  HIGH_QUALITY_CONVERSION : Bool
  TARGET_SAMPLE_RATE : Nat
  NORMALIZE_AUDIO_FLAG : Bool
  TRIM_SILENCE : Bool
deriving DecidableEq

/-- `ClarifaiTranscriber.transcribe_audio_with_quality` as a state
transformer on the four global settings: validate the model, save the
settings, override those given, run the body (audio validation, request
building and the network call, here an arbitrary state-passing
computation), and restore the saved settings in the `finally` block on
every exit path — normal return and exception alike. -/
def transcribe_audio_with_quality (c : Config) (model_name : String)
    (hq : Option Bool) (rate : Option Nat) (norm : Option Bool) (trim : Option Bool)
    (body : QSettings → Except PyErr String × QSettings)
    (s0 : QSettings) : Except PyErr String × QSettings :=
  if c.get_model_info model_name = [] then
    (.error (.valueError ("Unknown model: " ++ model_name)), s0)
  else
    let saved := s0
    let overridden : QSettings :=
      { HIGH_QUALITY_CONVERSION := hq.getD s0.HIGH_QUALITY_CONVERSION,
        TARGET_SAMPLE_RATE := rate.getD s0.TARGET_SAMPLE_RATE,
        NORMALIZE_AUDIO_FLAG := norm.getD s0.NORMALIZE_AUDIO_FLAG,
        TRIM_SILENCE := trim.getD s0.TRIM_SILENCE }
    let run := body overridden
    let restored : QSettings :=
      { HIGH_QUALITY_CONVERSION := saved.HIGH_QUALITY_CONVERSION,
        TARGET_SAMPLE_RATE := saved.TARGET_SAMPLE_RATE,
        NORMALIZE_AUDIO_FLAG := saved.NORMALIZE_AUDIO_FLAG,
        TRIM_SILENCE := saved.TRIM_SILENCE }
    (match run.1 with
     | .error e => .error (pyWrapError e)
     | .ok text => .ok text, restored)

/-- `ClarifaiTranscriber.transcribe_audio_with_wav`: same structure, but
the model is looked up in `self.models` directly and the body also
returns the converted WAV bytes. -/
def transcribe_audio_with_wav (models : List (String × Dict)) (model_name : String)
    (hq : Option Bool) (rate : Option Nat) (norm : Option Bool) (trim : Option Bool)
    (body : QSettings → Except PyErr (String × Bytes) × QSettings)
    (s0 : QSettings) : Except PyErr (String × Bytes) × QSettings :=
  if (List.lookup model_name models).getD [] = [] then
    (.error (.valueError ("Unknown model: " ++ model_name)), s0)
  else
    let saved := s0
    let overridden : QSettings :=
      { HIGH_QUALITY_CONVERSION := hq.getD s0.HIGH_QUALITY_CONVERSION,
        TARGET_SAMPLE_RATE := rate.getD s0.TARGET_SAMPLE_RATE,
        NORMALIZE_AUDIO_FLAG := norm.getD s0.NORMALIZE_AUDIO_FLAG,
        TRIM_SILENCE := trim.getD s0.TRIM_SILENCE }
    let run := body overridden
    let restored : QSettings :=
      { HIGH_QUALITY_CONVERSION := saved.HIGH_QUALITY_CONVERSION,
        TARGET_SAMPLE_RATE := saved.TARGET_SAMPLE_RATE,
        NORMALIZE_AUDIO_FLAG := saved.NORMALIZE_AUDIO_FLAG,
        TRIM_SILENCE := saved.TRIM_SILENCE }
    (match run.1 with
     | .error e => .error (pyWrapError e)
     | .ok res => .ok res, restored)

/-- C9: both quality-override entry points leave the four global settings
exactly as they found them, for every body outcome (success or any
exception) and every combination of overrides, including the pre-override
unknown-model exit. -/
theorem quality_settings_restored (c : Config) (models : List (String × Dict))
    (name : String) (hq : Option Bool) (rate : Option Nat)
    (norm trim : Option Bool)
    (body1 : QSettings → Except PyErr String × QSettings)
    (body2 : QSettings → Except PyErr (String × Bytes) × QSettings)
    (s0 : QSettings) :
    (transcribe_audio_with_quality c name hq rate norm trim body1 s0).2 = s0 ∧
    (transcribe_audio_with_wav models name hq rate norm trim body2 s0).2 = s0 := by
  constructor
  · unfold transcribe_audio_with_quality
    split
    · rfl
    · rfl
  · unfold transcribe_audio_with_wav
    split
    · rfl
    · rfl

/-! ## Chunked pseudo-streaming (C6, C10) -/

/-- One result dictionary yielded by
`ClarifaiOpenAIStreamer.transcribe_streaming`. -/
structure StreamResult where
  chunk_index : Nat
  text : String
  cumulative_text : String
  is_final : Bool
  error : Option String
  total_chunks : Option Nat
deriving DecidableEq

/-- The accumulation step of the streaming loop:
`if chunk_text: total_text += " " + chunk_text if total_text else chunk_text`. -/
def joinText (total_text chunk_text : String) : String :=
  if chunk_text ≠ "" then
    total_text ++ (if total_text ≠ "" then " " ++ chunk_text else chunk_text)
  else total_text

/-- The per-chunk loop of `transcribe_streaming`: each chunk outcome is
either the extracted chunk text (`.ok`, possibly empty) or an exception
caught by the per-chunk handler (`.error`), which yields an
empty-text result carrying the error and the unchanged cumulative text;
both branches increment `chunk_index`.  Returns the yielded results, the
final counter and the final cumulative text. -/
def streamLoop : Nat → String → List (Except String String) →
    List StreamResult × Nat × String
  | chunk_index, total_text, [] => ([], chunk_index, total_text)
  | chunk_index, total_text, .ok chunk_text :: rest =>
    let newTotal := joinText total_text chunk_text
    let other := streamLoop (chunk_index + 1) newTotal rest
    (⟨chunk_index, chunk_text, newTotal, false, none, none⟩ :: other.1, other.2)
  | chunk_index, total_text, .error msg :: rest =>
    let other := streamLoop (chunk_index + 1) total_text rest
    (⟨chunk_index, "", total_text, false, some msg, none⟩ :: other.1, other.2)

/-- `ClarifaiOpenAIStreamer.transcribe_streaming`, as a function of the
per-chunk transcription outcomes: the loop results followed by the final
result (`is_final = True`, `total_chunks = chunk_index`). -/
def transcribe_streaming (outcomes : List (Except String String)) :
    List StreamResult :=
  let loop := streamLoop 0 "" outcomes
  loop.1 ++ [⟨loop.2.1, loop.2.2, loop.2.2, true, none, some loop.2.1⟩]

/-- Folding the accumulation step over a list of chunk outcomes. -/
def cumFold (total_text : String) (outcomes : List (Except String String)) : String :=
  outcomes.foldl (fun acc o => match o with
    | .ok t => joinText acc t
    | .error _ => acc) total_text

/-- The non-empty successful chunk texts, in order. -/
def okTexts (outcomes : List (Except String String)) : List String :=
  outcomes.filterMap (fun o => match o with
    | .ok t => if t = "" then none else some t
    | .error _ => none)

/-- The text of a chunk result as a function of the chunk outcome. -/
def chunkTextOf : Option (Except String String) → String
  | some (.ok t) => t
  | _ => ""

/-- The error field of a chunk result as a function of the chunk outcome. -/
def chunkErrOf : Option (Except String String) → Option String
  | some (.error m) => some m
  | _ => none

lemma sepJoin_append_singleton (xs : List String) (t : String) (h : xs ≠ []) :
    sepJoin (xs ++ [t]) = sepJoin xs ++ " " ++ t := by
  induction xs with
  | nil => exact absurd rfl h
  | cons a rest ih =>
    cases rest with
    | nil => rfl
    | cons b tail =>
      have h1 : sepJoin ((a :: b :: tail) ++ [t]) =
          a ++ " " ++ sepJoin ((b :: tail) ++ [t]) := rfl
      have h2 : sepJoin (a :: b :: tail) = a ++ " " ++ sepJoin (b :: tail) := rfl
      rw [h1, h2, ih (by simp)]
      simp only [str_append_assoc]

lemma sepJoin_ne_of_ne (xs : List String) (hne : xs ≠ [])
    (hall : ∀ x ∈ xs, x ≠ "") : sepJoin xs ≠ "" := by
  cases xs with
  | nil => exact absurd rfl hne
  | cons a rest =>
    cases rest with
    | nil => exact hall a (by simp)
    | cons b tail =>
      intro heq
      have hd := congrArg String.data heq
      rw [show sepJoin (a :: b :: tail) = a ++ " " ++ sepJoin (b :: tail) from rfl] at hd
      rw [String.data_append, String.data_append,
        show (" " : String).data = [' '] from rfl,
        show ("" : String).data = [] from rfl] at hd
      simp at hd

lemma joinText_empty_right (s : String) : joinText s "" = s := by
  unfold joinText
  simp

lemma cumFold_general :
    ∀ (l : List (Except String String)) (xs : List String),
      (∀ x ∈ xs, x ≠ "") →
      cumFold (sepJoin xs) l = sepJoin (xs ++ okTexts l) := by
  intro l
  induction l with
  | nil =>
    intro xs h
    simp [cumFold, okTexts]
  | cons o rest ih =>
    intro xs hall
    cases o with
    | error m =>
      have hstep : cumFold (sepJoin xs) (.error m :: rest) =
          cumFold (sepJoin xs) rest := rfl
      have hok : okTexts (.error m :: rest) = okTexts rest := by
        simp [okTexts]
      rw [hstep, hok, ih xs hall]
    | ok t =>
      have hstep : cumFold (sepJoin xs) (.ok t :: rest) =
          cumFold (joinText (sepJoin xs) t) rest := rfl
      by_cases ht : t = ""
      · subst ht
        have hok : okTexts (.ok "" :: rest) = okTexts rest := by
          simp [okTexts]
        rw [hstep, joinText_empty_right, hok, ih xs hall]
      · have hok : okTexts (.ok t :: rest) = t :: okTexts rest := by
          simp [okTexts, ht]
        by_cases hxs : xs = []
        · subst hxs
          have hj : joinText (sepJoin ([] : List String)) t = sepJoin [t] := by
            unfold joinText sepJoin
            rw [if_pos ht]
            rw [if_neg (fun hcon => hcon rfl)]
            exact str_empty_append t
          rw [hstep, hok, hj, ih [t] (by simpa using ht)]
          rfl
        · have hsne : sepJoin xs ≠ "" := sepJoin_ne_of_ne xs hxs hall
          have hj : joinText (sepJoin xs) t = sepJoin (xs ++ [t]) := by
            unfold joinText
            rw [if_pos ht, if_pos hsne, sepJoin_append_singleton xs t hxs]
            rw [str_append_assoc]
          have hallt : ∀ x ∈ xs ++ [t], x ≠ "" := by
            intro x hx
            rcases List.mem_append.mp hx with hx | hx
            · exact hall x hx
            · rw [List.mem_singleton.mp hx]; exact ht
          rw [hstep, hok, hj, ih (xs ++ [t]) hallt, List.append_assoc]
          rfl

lemma cumFold_empty_acc (l : List (Except String String)) :
    cumFold "" l = sepJoin (okTexts l) := by
  have h := cumFold_general l [] (by simp)
  simpa [sepJoin] using h

lemma streamLoop_length :
    ∀ (l : List (Except String String)) (i : Nat) (tot : String),
      (streamLoop i tot l).1.length = l.length := by
  intro l
  induction l with
  | nil => intro i tot; rfl
  | cons o rest ih =>
    intro i tot
    cases o with
    | ok t => simp [streamLoop, ih]
    | error m => simp [streamLoop, ih]

lemma streamLoop_counter :
    ∀ (l : List (Except String String)) (i : Nat) (tot : String),
      (streamLoop i tot l).2.1 = i + l.length ∧
      (streamLoop i tot l).2.2 = cumFold tot l := by
  intro l
  induction l with
  | nil => intro i tot; exact ⟨rfl, rfl⟩
  | cons o rest ih =>
    intro i tot
    cases o with
    | ok t =>
      have h := ih (i + 1) (joinText tot t)
      refine ⟨?_, ?_⟩
      · show (streamLoop (i + 1) (joinText tot t) rest).2.1 = i + (rest.length + 1)
        rw [h.1]
        omega
      · show (streamLoop (i + 1) (joinText tot t) rest).2.2 = cumFold tot (.ok t :: rest)
        rw [h.2]
        rfl
    | error m =>
      have h := ih (i + 1) tot
      refine ⟨?_, ?_⟩
      · show (streamLoop (i + 1) tot rest).2.1 = i + (rest.length + 1)
        rw [h.1]
        omega
      · show (streamLoop (i + 1) tot rest).2.2 = cumFold tot (.error m :: rest)
        rw [h.2]
        rfl

lemma streamLoop_get :
    ∀ (l : List (Except String String)) (i : Nat) (tot : String) (j : Nat),
      j < l.length →
      ((streamLoop i tot l).1)[j]? = some ⟨i + j, chunkTextOf l[j]?,
        cumFold tot (l.take (j + 1)), false, chunkErrOf l[j]?, none⟩ := by
  intro l
  induction l with
  | nil =>
    intro i tot j hj
    exact absurd hj (by simp)
  | cons o rest ih =>
    intro i tot j hj
    cases o with
    | ok t =>
      have hz : (streamLoop i tot (Except.ok t :: rest)).1 =
          (⟨i, t, joinText tot t, false, none, none⟩ : StreamResult) ::
            (streamLoop (i + 1) (joinText tot t) rest).1 := rfl
      cases j with
      | zero =>
        rw [hz, List.getElem?_cons_zero]
        simp only [List.getElem?_cons_zero]
        rfl
      | succ j =>
        have hj2 : j < rest.length := by
          simpa using hj
        rw [hz, List.getElem?_cons_succ]
        rw [ih (i + 1) (joinText tot t) j hj2]
        have hidx : i + 1 + j = i + (j + 1) := by omega
        have hcum : cumFold tot ((Except.ok t :: rest).take (j + 1 + 1)) =
            cumFold (joinText tot t) (rest.take (j + 1)) := rfl
        rw [hidx, hcum]
        simp only [List.getElem?_cons_succ]
    | error m =>
      have hz : (streamLoop i tot (Except.error m :: rest)).1 =
          (⟨i, "", tot, false, some m, none⟩ : StreamResult) ::
            (streamLoop (i + 1) tot rest).1 := rfl
      cases j with
      | zero =>
        rw [hz, List.getElem?_cons_zero]
        simp only [List.getElem?_cons_zero]
        rfl
      | succ j =>
        have hj2 : j < rest.length := by
          simpa using hj
        rw [hz, List.getElem?_cons_succ]
        rw [ih (i + 1) tot j hj2]
        have hidx : i + 1 + j = i + (j + 1) := by omega
        have hcum : cumFold tot ((Except.error m :: rest).take (j + 1 + 1)) =
            cumFold tot (rest.take (j + 1)) := rfl
        rw [hidx, hcum]
        simp only [List.getElem?_cons_succ]

lemma streamLoop_not_final :
    ∀ (l : List (Except String String)) (i : Nat) (tot : String)
      (r : StreamResult), r ∈ (streamLoop i tot l).1 → r.is_final = false := by
  intro l
  induction l with
  | nil => intro i tot r hr; exact absurd hr (by simp [streamLoop])
  | cons o rest ih =>
    intro i tot r hr
    cases o with
    | ok t =>
      rcases List.mem_cons.mp hr with h | h
      · rw [h]
      · exact ih (i + 1) (joinText tot t) r h
    | error m =>
      rcases List.mem_cons.mp hr with h | h
      · rw [h]
      · exact ih (i + 1) tot r h

/-- C6: pseudo-streaming processes chunks strictly in array order with no
retry or reordering: the j-th yielded result carries `chunk_index = j`,
the j-th chunk outcome as its text (empty for a failed chunk), is not
final, and its cumulative text equals the non-empty texts of chunks
`0..j` joined in order by single spaces. -/
theorem transcribe_streaming_order_spec (outcomes : List (Except String String))
    (j : Nat) (hj : j < outcomes.length) :
    (transcribe_streaming outcomes).length = outcomes.length + 1 ∧
    (transcribe_streaming outcomes)[j]? = some ⟨j, chunkTextOf outcomes[j]?,
      sepJoin (okTexts (outcomes.take (j + 1))), false, chunkErrOf outcomes[j]?,
      none⟩ := by
  constructor
  · unfold transcribe_streaming
    rw [List.length_append, streamLoop_length]
    rfl
  · unfold transcribe_streaming
    have hlt : j < (streamLoop 0 "" outcomes).1.length := by
      rw [streamLoop_length]; exact hj
    rw [List.getElem?_append, if_pos hlt]
    rw [streamLoop_get outcomes 0 "" j hj]
    rw [cumFold_empty_acc, Nat.zero_add]

/-- Witness for C6 at three concrete chunks (success, failure, success),
index 2. -/
theorem transcribe_streaming_order_spec_witness :
    2 < ([Except.ok "hello", Except.error "boom", Except.ok "world"]).length ∧
    ((transcribe_streaming [Except.ok "hello", Except.error "boom",
        Except.ok "world"]).length =
      ([Except.ok "hello", Except.error "boom", Except.ok "world"]).length + 1 ∧
     (transcribe_streaming [Except.ok "hello", Except.error "boom",
        Except.ok "world"])[2]? = some ⟨2,
       chunkTextOf ([Except.ok "hello", Except.error "boom", Except.ok "world"])[2]?,
       sepJoin (okTexts (([Except.ok "hello", Except.error "boom",
         Except.ok "world"]).take (2 + 1))), false,
       chunkErrOf ([Except.ok "hello", Except.error "boom", Except.ok "world"])[2]?,
       none⟩) :=
  ⟨by decide, transcribe_streaming_order_spec
    [Except.ok "hello", Except.error "boom", Except.ok "world"] 2 (by decide)⟩

/-- C10: a completed streaming run yields exactly one final result; it is
the last element, its `chunk_index` and `total_chunks` equal the number of
non-final results (failed chunks included), its text equals the final
cumulative text, which is the cumulative text of the last chunk result
when at least one chunk was processed; all earlier results are non-final
with consecutive `chunk_index` values. -/
theorem transcribe_streaming_final_spec (outcomes : List (Except String String)) :
    ((transcribe_streaming outcomes).filter (fun r => r.is_final)).length = 1 ∧
    ((transcribe_streaming outcomes).filter (fun r => !r.is_final)).length =
      outcomes.length ∧
    (transcribe_streaming outcomes)[outcomes.length]? =
      some ⟨outcomes.length, cumFold "" outcomes, cumFold "" outcomes, true, none,
        some outcomes.length⟩ ∧
    (∀ j, j < outcomes.length → ∃ r,
      (transcribe_streaming outcomes)[j]? = some r ∧ r.is_final = false ∧
        r.chunk_index = j) ∧
    (outcomes ≠ [] → ∃ r,
      (transcribe_streaming outcomes)[outcomes.length - 1]? = some r ∧
        r.is_final = false ∧ r.cumulative_text = cumFold "" outcomes) := by
  have hcnt := streamLoop_counter outcomes 0 ""
  have hfin : (streamLoop 0 "" outcomes).2.1 = outcomes.length := by
    rw [hcnt.1]; omega
  have hloopnil : ∀ r ∈ (streamLoop 0 "" outcomes).1, (fun r => r.is_final) r = false := by
    intro r hr
    exact streamLoop_not_final outcomes 0 "" r hr
  refine ⟨?_, ?_, ?_, ?_, ?_⟩
  · unfold transcribe_streaming
    rw [List.filter_append]
    rw [List.filter_eq_nil_iff.mpr (by
      intro r hr
      rw [streamLoop_not_final outcomes 0 "" r hr]
      exact Bool.false_ne_true)]
    simp
  · unfold transcribe_streaming
    rw [List.filter_append]
    have hall : (streamLoop 0 "" outcomes).1.filter (fun r => !r.is_final) =
        (streamLoop 0 "" outcomes).1 := by
      apply List.filter_eq_self.mpr
      intro r hr
      rw [streamLoop_not_final outcomes 0 "" r hr]
      rfl
    rw [hall, List.length_append, streamLoop_length]
    rfl
  · unfold transcribe_streaming
    have hge : ¬ outcomes.length < (streamLoop 0 "" outcomes).1.length := by
      rw [streamLoop_length]; omega
    rw [List.getElem?_append, if_neg hge]
    rw [streamLoop_length]
    rw [Nat.sub_self]
    rw [show (([⟨(streamLoop 0 "" outcomes).2.1, (streamLoop 0 "" outcomes).2.2,
      (streamLoop 0 "" outcomes).2.2, true, none,
      some (streamLoop 0 "" outcomes).2.1⟩] : List StreamResult))[0]? =
      some ⟨(streamLoop 0 "" outcomes).2.1, (streamLoop 0 "" outcomes).2.2,
        (streamLoop 0 "" outcomes).2.2, true, none,
        some (streamLoop 0 "" outcomes).2.1⟩ from rfl]
    rw [hfin, hcnt.2]
  · intro j hj
    refine ⟨⟨j, chunkTextOf outcomes[j]?, cumFold "" (outcomes.take (j + 1)),
      false, chunkErrOf outcomes[j]?, none⟩, ?_, rfl, rfl⟩
    unfold transcribe_streaming
    have hlt : j < (streamLoop 0 "" outcomes).1.length := by
      rw [streamLoop_length]; exact hj
    rw [List.getElem?_append, if_pos hlt]
    rw [streamLoop_get outcomes 0 "" j hj, Nat.zero_add]
  · intro hne
    have hpos : 0 < outcomes.length := List.length_pos.mpr hne
    have hj : outcomes.length - 1 < outcomes.length := by omega
    refine ⟨⟨outcomes.length - 1, chunkTextOf outcomes[outcomes.length - 1]?,
      cumFold "" (outcomes.take (outcomes.length - 1 + 1)), false,
      chunkErrOf outcomes[outcomes.length - 1]?, none⟩, ?_, rfl, ?_⟩
    · unfold transcribe_streaming
      have hlt : outcomes.length - 1 < (streamLoop 0 "" outcomes).1.length := by
        rw [streamLoop_length]; exact hj
      rw [List.getElem?_append, if_pos hlt]
      rw [streamLoop_get outcomes 0 "" (outcomes.length - 1) hj, Nat.zero_add]
    · show cumFold "" (outcomes.take (outcomes.length - 1 + 1)) = cumFold "" outcomes
      have : outcomes.length - 1 + 1 = outcomes.length := by omega
      rw [this, List.take_length]

/-- Witness for C10 at the same three concrete chunk outcomes. -/
theorem transcribe_streaming_final_spec_witness :
    ((transcribe_streaming [Except.ok "hello", Except.error "boom",
        Except.ok "world"]).filter (fun r => r.is_final)).length = 1 ∧
    ((transcribe_streaming [Except.ok "hello", Except.error "boom",
        Except.ok "world"]).filter (fun r => !r.is_final)).length =
      ([Except.ok "hello", Except.error "boom", Except.ok "world"]).length ∧
    (transcribe_streaming [Except.ok "hello", Except.error "boom",
        Except.ok "world"])[([Except.ok "hello", Except.error "boom",
        Except.ok "world"]).length]? =
      some ⟨([Except.ok "hello", Except.error "boom", Except.ok "world"]).length,
        cumFold "" [Except.ok "hello", Except.error "boom", Except.ok "world"],
        cumFold "" [Except.ok "hello", Except.error "boom", Except.ok "world"],
        true, none,
        some ([Except.ok "hello", Except.error "boom", Except.ok "world"]).length⟩ ∧
    (∀ j, j < ([Except.ok "hello", Except.error "boom", Except.ok "world"]).length →
      ∃ r, (transcribe_streaming [Except.ok "hello", Except.error "boom",
        Except.ok "world"])[j]? = some r ∧ r.is_final = false ∧ r.chunk_index = j) ∧
    (([Except.ok "hello", Except.error "boom", Except.ok "world"] :
        List (Except String String)) ≠ [] → ∃ r,
      (transcribe_streaming [Except.ok "hello", Except.error "boom",
        Except.ok "world"])[([Except.ok "hello", Except.error "boom",
        Except.ok "world"]).length - 1]? = some r ∧
        r.is_final = false ∧
        r.cumulative_text =
          cumFold "" [Except.ok "hello", Except.error "boom", Except.ok "world"]) :=
  transcribe_streaming_final_spec
    [Except.ok "hello", Except.error "boom", Except.ok "world"]

/-! ## Audio conversion (C3, C5) -/

/-- A pydub `AudioSegment`, reduced to the properties the code reads,
plus an abstract content tag. -/
structure AudioSeg where
  duration_ms : Nat
  frame_rate : Nat
  channels : Nat
  sample_width : Nat
  content : Nat
deriving DecidableEq

/-- An exported WAV buffer together with its container metadata. -/
structure Wav where
  data : Bytes
  sampleRate : Nat
  channels : Nat
  bitsPerSample : Nat
deriving DecidableEq

/-- The pydub/ffmpeg operations invoked by the conversion code, as an
oracle: each call may raise (return `.error`). `exportWavParams` is
`export(format="wav", parameters=["-ac", ac, "-ar", ar, "-sample_fmt",
"s16", "-acodec", "pcm_s16le"])`; `exportPlain` is `export(format=fmt)`
without forced parameters. -/
structure AudioLib where
  fromFile : Bytes → Except String AudioSeg
  fromMp3 : Bytes → Except String AudioSeg
  fromFileForcedMp3 : Bytes → Except String AudioSeg
  gain : AudioSeg → Int → Except String AudioSeg
  setChannels : AudioSeg → Nat → Except String AudioSeg
  setFrameRate : AudioSeg → Nat → Except String AudioSeg
  setSampleWidth : AudioSeg → Nat → Except String AudioSeg
  normalize : AudioSeg → Except String AudioSeg
  highPass : AudioSeg → Nat → Except String AudioSeg
  stripSilence : AudioSeg → Except String AudioSeg
  exportWavParams : AudioSeg → Nat → Nat → Except String Wav
  exportPlain : AudioSeg → String → Except String Bytes

/-- The format-detection cascade of `convert_to_wav`: `from_file`, then
`from_mp3`, then `from_file(format="mp3")`. -/
def loadSegment (lib : AudioLib) (audio_bytes : Bytes) : Except String AudioSeg :=
  match lib.fromFile audio_bytes with
  | .ok seg => .ok seg
  | .error _ =>
    match lib.fromMp3 audio_bytes with
    | .ok seg => .ok seg
    | .error _ => lib.fromFileForcedMp3 audio_bytes

/-- The format-detection cascade of `convert_to_format`: `from_file`,
then `from_file(format="mp3")`. -/
def loadSegmentFmt (lib : AudioLib) (audio_bytes : Bytes) : Except String AudioSeg :=
  match lib.fromFile audio_bytes with
  | .ok seg => .ok seg
  | .error _ => lib.fromFileForcedMp3 audio_bytes

/-- The shared enhancement pipeline of `convert_to_wav` and
`convert_to_format`: gain, then (when `high_quality`) mono downmix,
resample, 16-bit width, normalization, best-effort noise reduction (its
own try/except passes on failure), and silence trimming for audio longer
than one second. -/
def processSegment (lib : AudioLib) (high_quality : Bool)
    (target_sample_rate : Nat) (normalize_audio trim_silence noise_reduce : Bool)
    (gain_db : Int) (seg : AudioSeg) : Except String AudioSeg := do
  let seg1 ← if gain_db ≠ 0 then lib.gain seg gain_db else pure seg
  if high_quality then
    let seg2 ← if seg1.channels > 1 then lib.setChannels seg1 1 else pure seg1
    let seg3 ← if seg2.frame_rate ≠ target_sample_rate then
        lib.setFrameRate seg2 target_sample_rate else pure seg2
    let seg4 ← if seg3.sample_width ≠ 2 then lib.setSampleWidth seg3 2 else pure seg3
    let seg5 ← if normalize_audio then lib.normalize seg4 else pure seg4
    let seg6 := if noise_reduce then
        (match lib.highPass seg5 80 with
         | .ok s => s
         | .error _ => seg5)
      else seg5
    if trim_silence ∧ seg6.duration_ms > 1000 then lib.stripSilence seg6
    else pure seg6
  else
    pure seg1

/-- The `try` body of `convert_to_wav`: load, enhance, and export with
the forced parameters `-ac 1 -ar target -sample_fmt s16`. -/
def convert_to_wav_body (lib : AudioLib) (high_quality : Bool)
    (target_sample_rate : Nat) (normalize_audio trim_silence noise_reduce : Bool)
    (gain_db : Int) (audio_bytes : Bytes) : Except String Wav :=
  match loadSegment lib audio_bytes with
  | .error e => .error e
  | .ok seg =>
    match processSegment lib high_quality target_sample_rate normalize_audio
        trim_silence noise_reduce gain_db seg with
    | .error e => .error e
    | .ok seg2 => lib.exportWavParams seg2 1 target_sample_rate

/-- The possible outcomes of `convert_to_wav`. -/
inductive ConvOutcome where
  | unavailable
  | success (w : Wav)
  | fallbackBasic (b : Bytes)
  | fallbackOriginal
deriving DecidableEq

/-- `ClarifaiTranscriber.convert_to_wav` with the control flow made
explicit: missing pydub returns the input; a failure anywhere in the
high-quality body falls back to a basic decode-and-export conversion;
only when that also fails is the unmodified input returned. -/
def convert_to_wav_outcome (avail : Bool) (lib : AudioLib) (cfg : Config)
    (audio_bytes : Bytes) (high_quality : Option Bool)
    (target_sample_rate : Option Nat) (normalize_audio trim_silence : Option Bool)
    (noise_reduce : Bool) (gain_db : Int) : ConvOutcome :=
  if !avail then .unavailable
  else
    let hq := high_quality.getD cfg.HIGH_QUALITY_CONVERSION
    let rate := target_sample_rate.getD cfg.TARGET_SAMPLE_RATE
    let norm := normalize_audio.getD cfg.NORMALIZE_AUDIO_FLAG
    let trim := trim_silence.getD cfg.TRIM_SILENCE
    match convert_to_wav_body lib hq rate norm trim noise_reduce gain_db audio_bytes with
    | .ok w => .success w
    | .error _ =>
      match lib.fromFile audio_bytes with
      | .ok seg =>
        match lib.exportPlain seg "wav" with
        | .ok b => .fallbackBasic b
        | .error _ => .fallbackOriginal
      | .error _ => .fallbackOriginal

/-- The bytes returned by `convert_to_wav`. -/
def convert_to_wav (avail : Bool) (lib : AudioLib) (cfg : Config)
    (audio_bytes : Bytes) (high_quality : Option Bool)
    (target_sample_rate : Option Nat) (normalize_audio trim_silence : Option Bool)
    (noise_reduce : Bool) (gain_db : Int) : Bytes :=
  match convert_to_wav_outcome avail lib cfg audio_bytes high_quality
      target_sample_rate normalize_audio trim_silence noise_reduce gain_db with
  | .unavailable => audio_bytes
  | .success w => w.data
  | .fallbackBasic b => b
  | .fallbackOriginal => audio_bytes

/-- The `try` body of `convert_to_format`: load, enhance, export in the
requested format (`wav` with forced parameters, known compressed formats
with their presets, anything else as plain WAV). -/
def convert_to_format_body (lib : AudioLib) (target_format : String)
    (high_quality : Bool) (target_sample_rate : Nat)
    (normalize_audio trim_silence noise_reduce : Bool) (gain_db : Int)
    (audio_bytes : Bytes) : Except String Bytes := do
  let seg ← loadSegmentFmt lib audio_bytes
  let seg2 ← processSegment lib high_quality target_sample_rate normalize_audio
    trim_silence noise_reduce gain_db seg
  if target_format.toLower = "wav" then
    (lib.exportWavParams seg2 1 target_sample_rate).map (fun w => w.data)
  else if target_format.toLower = "mp3" then lib.exportPlain seg2 "mp3"
  else if target_format.toLower = "flac" then lib.exportPlain seg2 "flac"
  else if target_format.toLower = "ogg" then lib.exportPlain seg2 "ogg"
  else lib.exportPlain seg2 "wav"

/-- `ClarifaiTranscriber.convert_to_format`: missing pydub or any failure
in the body returns the unmodified input bytes. -/
def convert_to_format (avail : Bool) (lib : AudioLib) (cfg : Config)
    (audio_bytes : Bytes) (target_format : String) (high_quality : Option Bool)
    (target_sample_rate : Option Nat) (normalize_audio trim_silence : Option Bool)
    (noise_reduce : Bool) (gain_db : Int) : Bytes :=
  if !avail then audio_bytes
  else
    let hq := high_quality.getD cfg.HIGH_QUALITY_CONVERSION
    let rate := target_sample_rate.getD cfg.TARGET_SAMPLE_RATE
    let norm := normalize_audio.getD cfg.NORMALIZE_AUDIO_FLAG
    let trim := trim_silence.getD cfg.TRIM_SILENCE
    match convert_to_format_body lib target_format hq rate norm trim noise_reduce
        gain_db audio_bytes with
    | .ok b => b
    | .error _ => audio_bytes

/-- A library in which normalization raises but everything else works:
the high-quality body of `convert_to_wav` fails and the basic fallback
succeeds with freshly exported bytes. -/
def libNormFails : AudioLib where
  fromFile := fun _ => .ok ⟨2000, 44100, 2, 2, 0⟩
  fromMp3 := fun _ => .error "mp3 load failed"
  fromFileForcedMp3 := fun _ => .error "forced mp3 load failed"
  gain := fun s _ => .ok s
  setChannels := fun s n => .ok { s with channels := n }
  setFrameRate := fun s r => .ok { s with frame_rate := r }
  setSampleWidth := fun s w => .ok { s with sample_width := w }
  normalize := fun _ => .error "normalize failed"
  highPass := fun s _ => .ok s
  stripSilence := fun s => .ok s
  exportWavParams := fun s ac ar => .ok ⟨[s.frame_rate, ac, ar], ar, ac, 16⟩
  exportPlain := fun _ _ => .ok [7, 7]

/-- C3 counterexample: with default settings (normalization on), a
normalization exception makes `convert_to_wav` return the bytes of the
basic fallback conversion, not the unmodified input. -/
theorem convert_to_wav_fallback_cex :
    convert_to_wav true libNormFails cfgNoOverride [1, 2] none none none none
      false 0 = [7, 7] ∧
    convert_to_wav true libNormFails cfgNoOverride [1, 2] none none none none
      false 0 ≠ [1, 2] := by
  constructor
  · rfl
  · intro h
    rw [show convert_to_wav true libNormFails cfgNoOverride [1, 2] none none none
      none false 0 = [7, 7] from rfl] at h
    simp at h

/-- C3 (amended): when the optional library is missing both conversions
return the unmodified input; `convert_to_format` returns the unmodified
input whenever any step of its body raises; `convert_to_wav` first falls
back to a basic decode-and-export conversion, returning those re-exported
bytes when it succeeds, and returns the unmodified input only when the
basic fallback also raises. -/
theorem conversion_fallback_spec (lib : AudioLib) (cfg : Config) (b : Bytes)
    (fmt : String) (hqo : Option Bool) (rateo : Option Nat)
    (normo trimo : Option Bool) (noise : Bool) (gain : Int) :
    convert_to_wav false lib cfg b hqo rateo normo trimo noise gain = b ∧
    convert_to_format false lib cfg b fmt hqo rateo normo trimo noise gain = b ∧
    (∀ e, convert_to_format_body lib fmt (hqo.getD cfg.HIGH_QUALITY_CONVERSION)
        (rateo.getD cfg.TARGET_SAMPLE_RATE) (normo.getD cfg.NORMALIZE_AUDIO_FLAG)
        (trimo.getD cfg.TRIM_SILENCE) noise gain b = .error e →
      convert_to_format true lib cfg b fmt hqo rateo normo trimo noise gain = b) ∧
    (∀ e, convert_to_wav_body lib (hqo.getD cfg.HIGH_QUALITY_CONVERSION)
        (rateo.getD cfg.TARGET_SAMPLE_RATE) (normo.getD cfg.NORMALIZE_AUDIO_FLAG)
        (trimo.getD cfg.TRIM_SILENCE) noise gain b = .error e →
      (∀ seg bb, lib.fromFile b = .ok seg → lib.exportPlain seg "wav" = .ok bb →
        convert_to_wav true lib cfg b hqo rateo normo trimo noise gain = bb) ∧
      (∀ msg, lib.fromFile b = .error msg →
        convert_to_wav true lib cfg b hqo rateo normo trimo noise gain = b) ∧
      (∀ seg msg, lib.fromFile b = .ok seg → lib.exportPlain seg "wav" = .error msg →
        convert_to_wav true lib cfg b hqo rateo normo trimo noise gain = b)) := by
  refine ⟨rfl, rfl, ?_, ?_⟩
  · intro e he
    unfold convert_to_format
    simp only [Bool.not_true, Bool.false_eq_true, if_false]
    rw [he]
  · intro e he
    refine ⟨?_, ?_, ?_⟩
    · intro seg bb hseg hexp
      unfold convert_to_wav convert_to_wav_outcome
      simp only [Bool.not_true, Bool.false_eq_true, if_false]
      rw [he, hseg]
      dsimp only
      rw [hexp]
    · intro msg hseg
      unfold convert_to_wav convert_to_wav_outcome
      simp only [Bool.not_true, Bool.false_eq_true, if_false]
      rw [he, hseg]
    · intro seg msg hseg hexp
      unfold convert_to_wav convert_to_wav_outcome
      simp only [Bool.not_true, Bool.false_eq_true, if_false]
      rw [he, hseg]
      dsimp only
      rw [hexp]

/-- Witness for C3 (amended), at the concrete failing-normalization
library: the body fails, the fallback succeeds, and the fallback bytes
are returned. -/
theorem conversion_fallback_spec_witness :
    (convert_to_wav false libNormFails cfgNoOverride [1, 2] none none none none
        false 0 = [1, 2] ∧
     convert_to_format false libNormFails cfgNoOverride [1, 2] "wav" none none
        none none false 0 = [1, 2] ∧
     (∀ e, convert_to_format_body libNormFails "wav"
         ((none : Option Bool).getD cfgNoOverride.HIGH_QUALITY_CONVERSION)
         ((none : Option Nat).getD cfgNoOverride.TARGET_SAMPLE_RATE)
         ((none : Option Bool).getD cfgNoOverride.NORMALIZE_AUDIO_FLAG)
         ((none : Option Bool).getD cfgNoOverride.TRIM_SILENCE) false 0 [1, 2] =
           .error e →
       convert_to_format true libNormFails cfgNoOverride [1, 2] "wav" none none
         none none false 0 = [1, 2]) ∧
     (∀ e, convert_to_wav_body libNormFails
         ((none : Option Bool).getD cfgNoOverride.HIGH_QUALITY_CONVERSION)
         ((none : Option Nat).getD cfgNoOverride.TARGET_SAMPLE_RATE)
         ((none : Option Bool).getD cfgNoOverride.NORMALIZE_AUDIO_FLAG)
         ((none : Option Bool).getD cfgNoOverride.TRIM_SILENCE) false 0 [1, 2] =
           .error e →
       (∀ seg bb, libNormFails.fromFile [1, 2] = .ok seg →
         libNormFails.exportPlain seg "wav" = .ok bb →
         convert_to_wav true libNormFails cfgNoOverride [1, 2] none none none
           none false 0 = bb) ∧
       (∀ msg, libNormFails.fromFile [1, 2] = .error msg →
         convert_to_wav true libNormFails cfgNoOverride [1, 2] none none none
           none false 0 = [1, 2]) ∧
       (∀ seg msg, libNormFails.fromFile [1, 2] = .ok seg →
         libNormFails.exportPlain seg "wav" = .error msg →
         convert_to_wav true libNormFails cfgNoOverride [1, 2] none none none
           none false 0 = [1, 2]))) ∧
    convert_to_wav_body libNormFails
        ((none : Option Bool).getD cfgNoOverride.HIGH_QUALITY_CONVERSION)
        ((none : Option Nat).getD cfgNoOverride.TARGET_SAMPLE_RATE)
        ((none : Option Bool).getD cfgNoOverride.NORMALIZE_AUDIO_FLAG)
        ((none : Option Bool).getD cfgNoOverride.TRIM_SILENCE) false 0 [1, 2] =
      .error "normalize failed" :=
  ⟨conversion_fallback_spec libNormFails cfgNoOverride [1, 2] "wav" none none
     none none false 0, rfl⟩

lemma convert_to_wav_body_export (lib : AudioLib) (hq : Bool) (rate : Nat)
    (norm trim noise : Bool) (gain : Int) (b : Bytes) (w : Wav)
    (h : convert_to_wav_body lib hq rate norm trim noise gain b = .ok w) :
    ∃ seg2, lib.exportWavParams seg2 1 rate = .ok w := by
  unfold convert_to_wav_body at h
  cases hload : loadSegment lib b with
  | error e =>
    rw [hload] at h
    exact Except.noConfusion h
  | ok seg =>
    rw [hload] at h
    dsimp only at h
    cases hproc : processSegment lib hq rate norm trim noise gain seg with
    | error e =>
      rw [hproc] at h
      exact Except.noConfusion h
    | ok seg2 =>
      rw [hproc] at h
      dsimp only at h
      exact ⟨seg2, h⟩

/-- C5: for every decodable buffer on which the conversion body succeeds,
and for every setting of the `high_quality` flag, the exported WAV (whose
export call always carries `-ac 1 -ar target -sample_fmt s16`) is mono at
the configured target sample rate with 16-bit samples, and its bytes are
what `convert_to_wav` returns. -/
theorem convert_to_wav_format_spec (lib : AudioLib) (cfg : Config) (b : Bytes)
    (hqo : Option Bool) (rateo : Option Nat) (normo trimo : Option Bool)
    (noise : Bool) (gain : Int)
    (hhonor : ∀ seg ac ar w, lib.exportWavParams seg ac ar = .ok w →
      w.channels = ac ∧ w.sampleRate = ar ∧ w.bitsPerSample = 16) :
    ∀ w, convert_to_wav_outcome true lib cfg b hqo rateo normo trimo noise gain =
        .success w →
      w.channels = 1 ∧ w.sampleRate = rateo.getD cfg.TARGET_SAMPLE_RATE ∧
      w.bitsPerSample = 16 ∧
      convert_to_wav true lib cfg b hqo rateo normo trimo noise gain = w.data := by
  intro w hw
  have hbody : convert_to_wav_body lib (hqo.getD cfg.HIGH_QUALITY_CONVERSION)
      (rateo.getD cfg.TARGET_SAMPLE_RATE) (normo.getD cfg.NORMALIZE_AUDIO_FLAG)
      (trimo.getD cfg.TRIM_SILENCE) noise gain b = .ok w := by
    have hw2 := hw
    unfold convert_to_wav_outcome at hw2
    simp only [Bool.not_true, Bool.false_eq_true, if_false] at hw2
    cases hb : convert_to_wav_body lib (hqo.getD cfg.HIGH_QUALITY_CONVERSION)
        (rateo.getD cfg.TARGET_SAMPLE_RATE) (normo.getD cfg.NORMALIZE_AUDIO_FLAG)
        (trimo.getD cfg.TRIM_SILENCE) noise gain b with
    | ok w2 =>
      rw [hb] at hw2
      dsimp only at hw2
      simp only [ConvOutcome.success.injEq] at hw2
      rw [← hw2]
    | error e =>
      rw [hb] at hw2
      dsimp only at hw2
      cases hseg : lib.fromFile b with
      | ok seg =>
        rw [hseg] at hw2
        dsimp only at hw2
        cases hexp : lib.exportPlain seg "wav" with
        | ok bb =>
          rw [hexp] at hw2
          exact ConvOutcome.noConfusion hw2
        | error m =>
          rw [hexp] at hw2
          exact ConvOutcome.noConfusion hw2
      | error m =>
        rw [hseg] at hw2
        exact ConvOutcome.noConfusion hw2
  obtain ⟨seg2, hexp⟩ := convert_to_wav_body_export lib _ _ _ _ _ _ _ w hbody
  have hprops := hhonor seg2 1 (rateo.getD cfg.TARGET_SAMPLE_RATE) w hexp
  refine ⟨hprops.1, hprops.2.1, hprops.2.2, ?_⟩
  unfold convert_to_wav
  rw [hw]

/-- A library in which every operation succeeds, for the C5 witness. -/
def libGood : AudioLib where
  fromFile := fun _ => .ok ⟨5000, 44100, 2, 2, 0⟩
  fromMp3 := fun _ => .ok ⟨5000, 44100, 2, 2, 0⟩
  fromFileForcedMp3 := fun _ => .ok ⟨5000, 44100, 2, 2, 0⟩
  gain := fun s _ => .ok s
  setChannels := fun s n => .ok { s with channels := n }
  setFrameRate := fun s r => .ok { s with frame_rate := r }
  setSampleWidth := fun s w => .ok { s with sample_width := w }
  normalize := fun s => .ok s
  highPass := fun s _ => .ok s
  stripSilence := fun s => .ok s
  exportWavParams := fun s ac ar => .ok ⟨[s.frame_rate, ac, ar], ar, ac, 16⟩
  exportPlain := fun _ _ => .ok [7, 7]

/-- Witness for C5 at a concrete always-succeeding library and default
configuration (target rate 16000). -/
theorem convert_to_wav_format_spec_witness :
    (∀ seg ac ar w, libGood.exportWavParams seg ac ar = .ok w →
      w.channels = ac ∧ w.sampleRate = ar ∧ w.bitsPerSample = 16) ∧
    convert_to_wav_outcome true libGood cfgNoOverride [1] none none none none
      false 0 = .success ⟨[16000, 1, 16000], 16000, 1, 16⟩ ∧
    ((⟨[16000, 1, 16000], 16000, 1, 16⟩ : Wav).channels = 1 ∧
     (⟨[16000, 1, 16000], 16000, 1, 16⟩ : Wav).sampleRate =
       (none : Option Nat).getD cfgNoOverride.TARGET_SAMPLE_RATE ∧
     (⟨[16000, 1, 16000], 16000, 1, 16⟩ : Wav).bitsPerSample = 16 ∧
     convert_to_wav true libGood cfgNoOverride [1] none none none none false 0 =
       (⟨[16000, 1, 16000], 16000, 1, 16⟩ : Wav).data) :=
  ⟨fun seg ac ar w h => by cases h; exact ⟨rfl, rfl, rfl⟩,
   rfl,
   convert_to_wav_format_spec libGood cfgNoOverride [1] none none none none
     false 0 (fun seg ac ar w h => by cases h; exact ⟨rfl, rfl, rfl⟩)
     ⟨[16000, 1, 16000], 16000, 1, 16⟩ rfl⟩

end AudioTranscribe
